import Mathlib

/-!
Verification development for the ishortn.ink edge middleware
(`src/middleware.ts`) and the shared database accessor
(`src/server/db/index.ts`).

The middleware is embedded shallowly: JavaScript strings become Lean
`String`s, `string | null | undefined` values become `Option String`,
thrown exceptions become `Except JsError`, and the single outbound
`fetch` becomes an explicit function argument whose structured outcome
(network failure / response status / body) is supplied by the caller.
The WHATWG `URL` constructor (a platform builtin, not repository code)
is modelled by `parseURL` below, covering the behaviours the middleware
exercises: scheme detection, special-scheme authority parsing, relative
resolution against a base URL, dot-segment normalisation, and href
serialisation.
-/

set_option maxRecDepth 16384

namespace IShortn

/-! ### JavaScript primitive semantics -/

/-- JS truthiness of a `string | null | undefined` value: `null`,
`undefined` and the empty string are falsy. -/
def jsTruthy : Option String → Bool
  | some s => s != ""
  | none => false

/-- JS `a || b` where both operands are `string | null | undefined`. -/
def jsOr (a b : Option String) : Option String := if jsTruthy a then a else b

/-- JS `a || d` where the fallback `d` is a plain string, as in
`simCountry || geo.country || (isLocalhost ? "US" : "Unknown")`. -/
def jsOrD (a : Option String) (d : String) : String :=
  if jsTruthy a then a.getD "" else d

/-- JS template-literal interpolation of a `string | undefined` value:
`undefined` is stringified to the literal text "undefined". -/
def jsInterpolate : Option String → String
  | some s => s
  | none => "undefined"

/-- ASCII uppercase/lowercase letters. -/
def isAsciiAlpha (c : Char) : Bool :=
  (65 ≤ c.toNat && c.toNat ≤ 90) || (97 ≤ c.toNat && c.toNat ≤ 122)

/-- ASCII decimal digits. -/
def isAsciiDigit (c : Char) : Bool := 48 ≤ c.toNat && c.toNat ≤ 57

/-- ASCII lowercasing of one character. -/
def asciiLower (c : Char) : Char :=
  if 65 ≤ c.toNat && c.toNat ≤ 90 then Char.ofNat (c.toNat + 32) else c

/-- ASCII lowercasing of a string. -/
def lowerStr (s : String) : String := ⟨s.data.map asciiLower⟩

/-- Model of JS `String.prototype.split` with a one-character separator:
accumulates the current chunk (reversed) and emits a chunk at every
separator; always returns at least one chunk. -/
def jsSplitAux (sep : Char) : List Char → List Char → List String
  | [], cur => [⟨cur.reverse⟩]
  | c :: cs, cur =>
    if c = sep then ⟨cur.reverse⟩ :: jsSplitAux sep cs [] else jsSplitAux sep cs (c :: cur)

/-- JS `s.split(sep)` for a single-character separator. -/
def jsSplit (sep : Char) (s : String) : List String := jsSplitAux sep s.data []

/-- Whether `needle` occurs at the start of `hay` (character lists). -/
def startsWithList : List Char → List Char → Bool
  | [], _ => true
  | _ :: _, [] => false
  | a :: as, b :: bs => a = b && startsWithList as bs

/-- Whether `needle` occurs anywhere inside `hay` (character lists). -/
def containsSubList (needle : List Char) : List Char → Bool
  | [] => needle.isEmpty
  | c :: cs => startsWithList needle (c :: cs) || containsSubList needle cs

/-- Model of JS `String.prototype.includes`. -/
def jsIncludes (s sub : String) : Bool := containsSubList sub.data s.data

/-- Model of JS `String.prototype.startsWith`. -/
def jsStartsWith (s pre : String) : Bool := startsWithList pre.data s.data

/-- Model of JS `String.prototype.endsWith`. -/
def jsEndsWith (s suf : String) : Bool :=
  startsWithList suf.data.reverse s.data.reverse

/-- JS WhiteSpace and LineTerminator code points (trimmed by `trim`). -/
def isJsWhitespace (c : Char) : Bool :=
  c.toNat == 9 || c.toNat == 10 || c.toNat == 11 || c.toNat == 12 || c.toNat == 13 ||
  c.toNat == 32 || c.toNat == 160 || c.toNat == 5760 ||
  (8192 ≤ c.toNat && c.toNat ≤ 8202) || c.toNat == 8232 || c.toNat == 8233 ||
  c.toNat == 8239 || c.toNat == 8287 || c.toNat == 12288 || c.toNat == 65279

/-- Model of JS `String.prototype.trim`. -/
def jsTrim (s : String) : String :=
  ⟨(s.data.dropWhile isJsWhitespace).reverse.dropWhile isJsWhitespace |>.reverse⟩

/-! ### Percent-encoding (models of `encodeURI` / `encodeURIComponent`
and the WHATWG percent-encode sets) -/

/-- Uppercase hexadecimal digit for a value below 16. -/
def hexDigit (n : Nat) : Char :=
  if n < 10 then Char.ofNat (48 + n) else Char.ofNat (55 + n)

/-- Percent-encoding of one byte as three characters `%XY`. -/
def percentByte (b : Nat) : List Char :=
  ['%', hexDigit (b / 16 % 16), hexDigit (b % 16)]

/-- UTF-8 byte sequence of a Unicode scalar value. -/
def utf8Bytes (n : Nat) : List Nat :=
  if n < 128 then [n]
  else if n < 2048 then [192 + n / 64, 128 + n % 64]
  else if n < 65536 then [224 + n / 4096, 128 + n / 64 % 64, 128 + n % 64]
  else [240 + n / 262144, 128 + n / 4096 % 64, 128 + n / 64 % 64, 128 + n % 64]

/-- Percent-encoding of one character (all of its UTF-8 bytes). -/
def percentEncodeChar (c : Char) : List Char :=
  (utf8Bytes c.toNat).foldr (fun b acc => percentByte b ++ acc) []

/-- Encode one character, keeping it verbatim when `keep` holds. -/
def encChar (keep : Char → Bool) (c : Char) : List Char :=
  if keep c then [c] else percentEncodeChar c

/-- Character-wise encoding of a character list. -/
def encList (keep : Char → Bool) : List Char → List Char
  | [] => []
  | c :: cs => encChar keep c ++ encList keep cs

/-- Character-wise encoding of a string. -/
def encodeStr (keep : Char → Bool) (s : String) : String := ⟨encList keep s.data⟩

/-- Characters left verbatim by JS `encodeURIComponent`:
alphanumerics and `- _ . ! ~ * ' ( )`. -/
def keepURIComponent (c : Char) : Bool :=
  isAsciiAlpha c || isAsciiDigit c ||
  ['-', '_', '.', '!', '~', '*', '(', ')'].contains c || c.toNat == 39

/-- Characters left verbatim by JS `encodeURI`: the `encodeURIComponent`
set plus the URI reserved characters `; , / ? : @ & = + $ #`. -/
def keepURI (c : Char) : Bool :=
  keepURIComponent c ||
  [';', ',', '/', '?', ':', '@', '&', '=', '+', '$', '#'].contains c

/-- Model of JS `encodeURIComponent`. -/
def encodeURIComponent (s : String) : String := encodeStr keepURIComponent s

/-- Model of JS `encodeURI`. -/
def encodeURI (s : String) : String := encodeStr keepURI s

/-! ### Model of the WHATWG `URL` constructor

`parseURL input base` models `new URL(input, base)` for the behaviours
the middleware exercises.  Simplifications (documented, none reachable
from the concrete inputs used below): IPv6 host brackets, `file:`-drive
special cases, userinfo retention, `%2e`-encoded dot segments beyond the
plain spellings, query/fragment percent-encoding, and the
same-scheme-relative edge case for special schemes are not modelled. -/

/-- A parsed URL record.  `schemeData` plays the role of a WHATWG
"cannot-be-a-base" URL's path (e.g. everything after `javascript:`);
it is `none` exactly when the URL has an authority and a list path. -/
structure ParsedURL where
  scheme : String
  host : String
  port : Option Nat
  path : List String
  schemeData : Option String
  query : Option String
  fragment : Option String
deriving DecidableEq, Repr

/-- Schemes the WHATWG standard calls "special". -/
def isSpecialScheme (s : String) : Bool :=
  ["http", "https", "ws", "wss", "ftp", "file"].contains s

/-- Default port of a special scheme (elided from the parsed record). -/
def defaultPort (scheme : String) : Option Nat :=
  match scheme with
  | "http" => some 80
  | "https" => some 443
  | "ws" => some 80
  | "wss" => some 443
  | "ftp" => some 21
  | _ => none

/-- JS `URL.protocol`: the scheme followed by a colon. -/
def ParsedURL.protocol (u : ParsedURL) : String := u.scheme ++ ":"

/-- Serialised path: one `/` before every segment. -/
def pathSerial (segs : List String) : String :=
  segs.foldl (fun acc seg => acc ++ "/" ++ seg) ""

/-- JS `URL.pathname`. -/
def ParsedURL.pathname (u : ParsedURL) : String :=
  match u.schemeData with
  | some op => op
  | none => pathSerial u.path

/-- JS `URL.host` (hostname plus an explicit port when present). -/
def ParsedURL.hostString (u : ParsedURL) : String :=
  u.host ++ (match u.port with | some p => ":" ++ toString p | none => "")

/-- JS `URL.origin` for special-scheme URLs. -/
def ParsedURL.originString (u : ParsedURL) : String :=
  u.scheme ++ "://" ++ u.hostString

/-- JS `URL.href` / `URL.toString()`: the serialised URL. -/
def ParsedURL.href (u : ParsedURL) : String :=
  let queryStr := match u.query with | some q => "?" ++ q | none => ""
  let fragStr := match u.fragment with | some f => "#" ++ f | none => ""
  match u.schemeData with
  | some op => u.scheme ++ ":" ++ op ++ queryStr ++ fragStr
  | none => u.scheme ++ "://" ++ u.hostString ++ pathSerial u.path ++ queryStr ++ fragStr

/-- Characters that make a hostname invalid (WHATWG forbidden host code
points, restricted to ASCII). -/
def forbiddenHostChar (c : Char) : Bool :=
  c.toNat ≤ 32 ||
  ['#', '/', ':', '?', '@', '[', ']', '^', '|', '<', '>', '%', '\\'].contains c

/-- Digits of a decimal numeral as a number. -/
def digitsToNat (l : List Char) : Nat :=
  l.foldl (fun n c => n * 10 + (c.toNat - 48)) 0

/-- Parse an authority (userinfo dropped, hostname lowercased, port
validated, at most one `:`). -/
def parseHostPort (auth : List Char) : Option (String × Option Nat) :=
  let hostPort := ((jsSplitAux '@' auth []).getLastD "").data
  let hostname := hostPort.takeWhile (fun c => c ≠ ':')
  let portPart := hostPort.dropWhile (fun c => c ≠ ':')
  if hostname.isEmpty then none
  else if hostname.any forbiddenHostChar then none
  else
    let hostStr : String := ⟨hostname.map asciiLower⟩
    match portPart with
    | [] => some (hostStr, none)
    | _ :: rest =>
      if rest.isEmpty then some (hostStr, none)
      else if rest.all isAsciiDigit then
        let p := digitsToNat rest
        if p < 65536 then some (hostStr, some p) else none
      else none

/-- Split off the fragment (text after the first `#`). -/
def splitFragment (l : List Char) : List Char × Option (List Char) :=
  if l.any (fun c => c = '#') then
    (l.takeWhile (fun c => c ≠ '#'), some ((l.dropWhile (fun c => c ≠ '#')).drop 1))
  else (l, none)

/-- Split off the query (text after the first `?`). -/
def splitQuery (l : List Char) : List Char × Option (List Char) :=
  if l.any (fun c => c = '?') then
    (l.takeWhile (fun c => c ≠ '?'), some ((l.dropWhile (fun c => c ≠ '?')).drop 1))
  else (l, none)

/-- Single-dot path segment. -/
def isDotSeg (s : String) : Bool := s == "."

/-- Double-dot path segment. -/
def isDotDotSeg (s : String) : Bool := s == ".."

/-- WHATWG dot-segment normalisation over a segment list: `..` shortens
the path, `.` is dropped, and either at the end of the path leaves a
trailing empty segment.  `stack` holds the output segments reversed. -/
def normAux : List String → List String → List String
  | stack, [] => stack.reverse
  | stack, seg :: rest =>
    let stack1 :=
      if isDotDotSeg seg then (if rest.isEmpty then "" :: stack.drop 1 else stack.drop 1)
      else if isDotSeg seg then (if rest.isEmpty then "" :: stack else stack)
      else seg :: stack
    normAux stack1 rest

/-- Characters kept verbatim by the WHATWG path percent-encode set
(controls, space, quote, angle brackets, backquote, curly braces and
non-ASCII are encoded; `?` and `#` are split off before this runs). -/
def pathKeep (c : Char) : Bool :=
  32 < c.toNat && c.toNat ≤ 126 &&
  c.toNat ≠ 34 && c.toNat ≠ 60 && c.toNat ≠ 62 &&
  c.toNat ≠ 96 && c.toNat ≠ 123 && c.toNat ≠ 125

/-- Percent-encode one path segment. -/
def encodeSeg (s : String) : String := encodeStr pathKeep s

/-- Path segments of a serialised path that starts at a `/` (backslashes
behave as slashes in special URLs). -/
def segmentsOf (pathPart : List Char) : List String :=
  let p := pathPart.map (fun c => if c = '\\' then '/' else c)
  jsSplitAux '/' (p.drop 1) []

/-- Parse the remainder of a special-scheme URL after `scheme:`:
optional slashes, authority, then path, query and fragment. -/
def parseSpecialAfterScheme (scheme : String) (rest : List Char) : Option ParsedURL :=
  let rest1 := rest.dropWhile (fun c => c = '/' || c = '\\')
  let authority := rest1.takeWhile (fun c => c ≠ '/' && c ≠ '?' && c ≠ '#' && c ≠ '\\')
  let afterAuth := rest1.drop authority.length
  match parseHostPort authority with
  | none => none
  | some (host, port) =>
    let port1 := if port = defaultPort scheme then none else port
    let (pq, frag) := splitFragment afterAuth
    let (pathPart, query) := splitQuery pq
    let segs := if pathPart.isEmpty then [""] else segmentsOf pathPart
    some { scheme := scheme
           host := host
           port := port1
           path := (normAux [] segs).map encodeSeg
           schemeData := none
           query := query.map (fun q => (⟨q⟩ : String))
           fragment := frag.map (fun f => (⟨f⟩ : String)) }

/-- Parse the remainder of a non-special-scheme URL after `scheme:` as a
cannot-be-a-base (scheme-data) URL. -/
def parseNonSpecialAfterScheme (scheme : String) (rest : List Char) : Option ParsedURL :=
  let (pq, frag) := splitFragment rest
  let (op, query) := splitQuery pq
  some { scheme := scheme
         host := ""
         port := none
         path := []
         schemeData := some (⟨op⟩ : String)
         query := query.map (fun q => (⟨q⟩ : String))
         fragment := frag.map (fun f => (⟨f⟩ : String)) }

/-- Extract a leading `scheme:` if the input has one (first character
ASCII alpha, then alphanumerics or `+ - .`, then a colon). -/
def extractScheme (l : List Char) : Option (String × List Char) :=
  match l with
  | [] => none
  | c :: _ =>
    if isAsciiAlpha c then
      let schemeChars := l.takeWhile
        (fun d => isAsciiAlpha d || isAsciiDigit d || d = '+' || d = '-' || d = '.')
      match l.drop schemeChars.length with
      | ':' :: r => some (⟨schemeChars.map asciiLower⟩, r)
      | _ => none
    else none

/-- Resolve a relative reference `l` against `base`. -/
def parseRelative (base : ParsedURL) (l : List Char) : Option ParsedURL :=
  if base.schemeData.isSome then
    match l with
    | '#' :: f => some { base with fragment := some (⟨f⟩ : String) }
    | _ => none
  else
    match l with
    | [] => some { base with fragment := none }
    | '/' :: '/' :: r => parseSpecialAfterScheme base.scheme ('/' :: '/' :: r)
    | '/' :: r =>
      let (pq, frag) := splitFragment ('/' :: r)
      let (pathPart, query) := splitQuery pq
      some { base with
             path := (normAux [] (segmentsOf pathPart)).map encodeSeg
             query := query.map (fun q => (⟨q⟩ : String))
             fragment := frag.map (fun f => (⟨f⟩ : String)) }
    | '?' :: r =>
      let (q, frag) := splitFragment r
      some { base with
             query := some (⟨q⟩ : String)
             fragment := frag.map (fun f => (⟨f⟩ : String)) }
    | '#' :: r => some { base with fragment := some (⟨r⟩ : String) }
    | l1 =>
      let (pq, frag) := splitFragment l1
      let (pathPart, query) := splitQuery pq
      let segs := jsSplitAux '/' (pathPart.map (fun c => if c = '\\' then '/' else c)) []
      some { base with
             path := (normAux [] (base.path.dropLast ++ segs)).map encodeSeg
             query := query.map (fun q => (⟨q⟩ : String))
             fragment := frag.map (fun f => (⟨f⟩ : String)) }

/-- Model of `new URL(input, base)`: returns `none` where the JS
constructor would throw. -/
def parseURL (input : String) (base : Option ParsedURL) : Option ParsedURL :=
  let l0 := (input.data.dropWhile (fun c => c.toNat ≤ 32)).reverse.dropWhile
    (fun c => c.toNat ≤ 32) |>.reverse
  let l := l0.filter (fun c => c.toNat ≠ 9 && c.toNat ≠ 10 && c.toNat ≠ 13)
  match extractScheme l with
  | some (scheme, rest) =>
    if isSpecialScheme scheme then parseSpecialAfterScheme scheme rest
    else parseNonSpecialAfterScheme scheme rest
  | none =>
    match base with
    | some b => parseRelative b l
    | none => none

/-! ### URLSearchParams lookup (for `request.nextUrl.searchParams.get("geo")`) -/

/-- Hexadecimal digit value. -/
def hexVal (c : Char) : Option Nat :=
  if 48 ≤ c.toNat && c.toNat ≤ 57 then some (c.toNat - 48)
  else if 65 ≤ c.toNat && c.toNat ≤ 70 then some (c.toNat - 55)
  else if 97 ≤ c.toNat && c.toNat ≤ 102 then some (c.toNat - 87)
  else none

/-- `application/x-www-form-urlencoded` decoding of a component:
`+` becomes a space and valid `%XY` sequences become bytes. -/
def formDecode : List Char → List Char
  | [] => []
  | '%' :: a :: b :: rest =>
    match hexVal a, hexVal b with
    | some x, some y => Char.ofNat (16 * x + y) :: formDecode rest
    | _, _ => '%' :: formDecode (a :: b :: rest)
  | c :: rest => (if c = '+' then ' ' else c) :: formDecode rest

/-- Model of `url.searchParams.get(key)`: the first pair of the query
whose decoded name equals `key` (a pair without `=` has value `""`). -/
def getSearchParam (u : ParsedURL) (key : String) : Option String :=
  match u.query with
  | none => none
  | some q =>
    ((jsSplit '&' q).filter (fun p => p != "")).findSome? (fun pair =>
      let name : String := ⟨formDecode (pair.data.takeWhile (fun c => c ≠ '='))⟩
      let valChars :=
        match pair.data.dropWhile (fun c => c ≠ '=') with
        | [] => []
        | _ :: v => v
      if name == key then some (⟨formDecode valChars⟩ : String) else none)

/-! ### The middleware (`src/middleware.ts`) -/

/-- Request headers as name/value pairs; lookup is case-insensitive as
in the Fetch `Headers` class, returning `null` (`none`) when absent. -/
abbrev Headers := List (String × String)

/-- Model of `request.headers.get(name)`. -/
def hget (h : Headers) (name : String) : Option String :=
  (h.find? (fun p => lowerStr p.1 == lowerStr name)).map (fun p => p.2)

/-- An incoming request: its absolute URL and its headers. -/
structure NextRequest where
  url : String
  headers : Headers

/-- Embedding of `getIpAddress` (middleware.ts lines 13-33): probe
`x-forwarded-for` (first comma-separated entry, trimmed), then
`x-real-ip`, then `cf-connecting-ip`; otherwise `undefined`. -/
def getIpAddress (headers : Headers) : Option String :=
  let forwardedFor := hget headers "x-forwarded-for"
  let realIp := hget headers "x-real-ip"
  let cfConnectingIp := hget headers "cf-connecting-ip"
  if jsTruthy forwardedFor then
    some (jsTrim ((jsSplit ',' (forwardedFor.getD "")).headD ""))
  else if jsTruthy realIp then realIp
  else if jsTruthy cfConnectingIp then cfConnectingIp
  else none

/-- Country/city pair derived from geo headers. -/
structure Geo where
  country : Option String
  city : Option String
deriving DecidableEq, Repr

/-- Embedding of `getGeolocation` (middleware.ts lines 39-56):
Cloudflare, then AWS CloudFront, then generic GeoIP headers, first
truthy value per field, `undefined` when all are falsy. -/
def getGeolocation (headers : Headers) : Geo :=
  let cfCountry := hget headers "cf-ipcountry"
  let cfCity := hget headers "cf-ipcity"
  let awsCountry := hget headers "cloudfront-viewer-country"
  let awsCity := hget headers "cloudfront-viewer-city"
  let geoCountry := hget headers "x-geo-country"
  let geoCity := hget headers "x-geo-city"
  { country := jsOr cfCountry (jsOr awsCountry (jsOr geoCountry none))
    city := jsOr cfCity (jsOr awsCity (jsOr geoCity none)) }

/-- Modelled from the spec: `getCountryContinentCode` (imported from
src/lib/countries, a file not included under src/) is a static
country-to-continent lookup table; the spec fixes FR to EU and the
localhost default US to NA, and its ClientContext invariant requires a
concrete continent string for every input, so unknown codes map to
"Unknown". -/
def getCountryContinentCode (country : String) : String :=
  match country with
  | "US" => "NA" | "CA" => "NA" | "MX" => "NA"
  | "FR" => "EU" | "DE" => "EU" | "GB" => "EU" | "ES" => "EU" | "IT" => "EU"
  | "NL" => "EU" | "PL" => "EU" | "PT" => "EU" | "SE" => "EU"
  | "JP" => "AS" | "CN" => "AS" | "IN" => "AS" | "KR" => "AS" | "SG" => "AS"
  | "BR" => "SA" | "AR" => "SA" | "CL" => "SA"
  | "AU" => "OC" | "NZ" => "OC"
  | "ZA" => "AF" | "NG" => "AF" | "EG" => "AF" | "KE" => "AF"
  | _ => "Unknown"

/-- Modelled from the spec: `isBot` (imported from src/lib/utils/is-bot,
a file not included under src/) matches the user-agent against a known
social-media/search-bot signature set. -/
def isBot (userAgent : String) : Bool :=
  ["bot", "facebookexternalhit", "twitterbot", "linkedinbot", "whatsapp",
   "slackbot", "telegrambot", "discord", "googlebot", "bingbot",
   "crawler", "spider"].any (fun sig => jsIncludes (lowerStr userAgent) sig)

/-- Modelled from the spec: the Clerk route matcher
`createRouteMatcher(["/dashboard(.*)"])` (an external library) matches
exactly the pathnames starting with the protected-dashboard prefix. -/
def isProtectedRoute (pathname : String) : Bool :=
  jsStartsWith pathname "/dashboard"

/-- Embedding of the `shouldSkip` condition (middleware.ts lines
65-73). -/
def shouldSkip (pathname : String) : Bool :=
  pathname == "/" ||
  jsStartsWith pathname "/api/" ||
  jsStartsWith pathname "/dashboard" ||
  jsStartsWith pathname "/_next/" ||
  jsStartsWith pathname "/cloaked/" ||
  jsEndsWith pathname ".png" ||
  jsEndsWith pathname ".ico" ||
  decide ((jsSplit '/' pathname).length > 2)

/-- The derived client context. -/
structure ClientContext where
  country : String
  city : String
  continent : String
deriving DecidableEq, Repr

/-- Embedding of the context-derivation block (middleware.ts lines
90-96): the `?geo=` override, then geo headers, then localhost
simulation values or "Unknown"; continent via the lookup table. -/
def resolveContext (host : String) (simCountry : Option String) (geo : Geo) : ClientContext :=
  let isLocalhost := jsIncludes host "localhost" || jsIncludes host "127.0.0.1"
  let country := jsOrD simCountry (jsOrD geo.country (if isLocalhost then "US" else "Unknown"))
  let city := jsOrD geo.city (if isLocalhost then "San Francisco" else "Unknown")
  let continent :=
    if country != "" && country != "Unknown" then getCountryContinentCode country
    else if isLocalhost then "NA" else "Unknown"
  { country := country, city := city, continent := continent }

/-- Embedding of the outbound resolver URL (middleware.ts lines
103-106): a template literal passed through `encodeURI`; an undefined
`ip` interpolates as the text "undefined". -/
def buildResolverUrl (internalOrigin host pathname country city continent : String)
    (ip : Option String) : String :=
  encodeURI (internalOrigin ++ "/api/link?domain=" ++ host ++ "&alias=" ++ pathname ++
    "&country=" ++ country ++ "&city=" ++ city ++ "&continent=" ++ continent ++
    "&ip=" ++ jsInterpolate ip)

/-- The resolver response body once JSON-parsed: optional `url` and
optional `cloaking` (absent booleans behave as `false`). -/
structure ResolverData where
  url : Option String
  cloaking : Bool
deriving DecidableEq, Repr

/-- A parsed-or-not response body. -/
inductive Body where
  | invalidJson
  | json (data : ResolverData)
deriving DecidableEq, Repr

/-- Outcome of the outbound `fetch`: the promise rejects (network
failure) or resolves with a status (`ok` means 2xx) and a body. -/
inductive FetchOutcome where
  | networkFailure
  | response (respOk : Bool) (body : Body)
deriving DecidableEq, Repr

/-- The outbound request the middleware issues. -/
structure ResolverRequest where
  url : String
  userAgent : String
  referer : String
deriving DecidableEq, Repr

/-- The middleware's decision: pass through (`NextResponse.next()`),
redirect to an absolute URL, or internally rewrite to a cloak URL. -/
inductive Decision where
  | next
  | redirect (url : String)
  | rewrite (target : ParsedURL)
deriving DecidableEq, Repr

/-- Exceptions the handler can let escape (each would surface as a 5xx
to the end user). -/
inductive JsError where
  | invalidRequestUrl
  | fetchRejected
  | jsonParseFailed
  | rewriteUrlInvalid
deriving DecidableEq, Repr

/-- Embedding of the validate-and-dispatch tail (middleware.ts lines
121-158): the `!data.url` guard, `new URL(data.url, request.url)` with
the http/https allow-list, the prepend-`https://` fallback accepting
only `https:`, and the cloaking rewrite
`new URL("/cloaked/" + encodeURIComponent(redirectUrl), request.url)`. -/
def dispatchDecision (requestUrl : ParsedURL) (data : ResolverData) : Except JsError Decision :=
  if !(jsTruthy data.url) then .ok .next
  else
    let urlStr := data.url.getD ""
    let finish : String → Except JsError Decision := fun redirectUrl =>
      if data.cloaking then
        match parseURL ("/cloaked/" ++ encodeURIComponent redirectUrl) (some requestUrl) with
        | some target => .ok (.rewrite target)
        | none => .error .rewriteUrlInvalid
      else .ok (.redirect redirectUrl)
    match parseURL urlStr (some requestUrl) with
    | some parsedUrl =>
      if parsedUrl.protocol != "http:" && parsedUrl.protocol != "https:" then .ok .next
      else finish parsedUrl.href
    | none =>
      match parseURL ("https://" ++ urlStr) none with
      | some fallbackUrl =>
        if fallbackUrl.protocol != "https:" then .ok .next
        else finish fallbackUrl.href
      | none => .ok .next

/-- Result of one middleware run: the decision (or escaped exception)
and the outbound resolver request, when one was issued. -/
structure RunResult where
  result : Except JsError Decision
  resolverCall : Option ResolverRequest

/-- The outbound resolver request assembled from the request context
(middleware.ts lines 86-113): derived geo/ip context, the
internal-or-original origin, the `encodeURI`-wrapped template URL, and
the forwarded `user-agent` / `referer` headers (empty when absent). -/
def mkResolverRequest (isProduction : Bool) (req : NextRequest)
    (requestUrl : ParsedURL) : ResolverRequest :=
  let geo := getGeolocation req.headers
  let ip := getIpAddress req.headers
  let ctx := resolveContext requestUrl.hostString (getSearchParam requestUrl "geo") geo
  let internalOrigin := if isProduction then "http://localhost:3000"
                        else requestUrl.originString
  { url := buildResolverUrl internalOrigin requestUrl.hostString requestUrl.pathname
      ctx.country ctx.city ctx.continent ip
    userAgent := (hget req.headers "user-agent").getD ""
    referer := (hget req.headers "referer").getD "" }

/-- Embedding of `resolveLinkAndLogAnalytics` (middleware.ts lines
58-159) under the `clerkMiddleware` wrapper.  `isProduction` models
`process.env.NODE_ENV === "production"`; `fetchFn` supplies the
resolver's behaviour for the outbound request.  Early `return;` on a
protected route and `NextResponse.next()` both pass the request
through. -/
def runMiddleware (isProduction : Bool) (req : NextRequest)
    (fetchFn : ResolverRequest → FetchOutcome) : RunResult :=
  match parseURL req.url none with
  | none => { result := .error .invalidRequestUrl, resolverCall := none }
  | some requestUrl =>
    if isProtectedRoute requestUrl.pathname then
      { result := .ok .next, resolverCall := none }
    else if shouldSkip requestUrl.pathname then
      { result := .ok .next, resolverCall := none }
    else if jsTruthy (hget req.headers "user-agent") &&
        isBot ((hget req.headers "user-agent").getD "") then
      { result := .ok .next, resolverCall := none }
    else
      let resolverReq := mkResolverRequest isProduction req requestUrl
      match fetchFn resolverReq with
      | .networkFailure => { result := .error .fetchRejected, resolverCall := some resolverReq }
      | .response respOk body =>
        if !respOk then { result := .ok .next, resolverCall := some resolverReq }
        else
          match body with
          | .invalidJson => { result := .error .jsonParseFailed, resolverCall := some resolverReq }
          | .json data => { result := dispatchDecision requestUrl data
                            resolverCall := some resolverReq }

/-! ### The shared database accessor (`src/server/db/index.ts`)

The module-level mutable bindings `_connection` and `_db` become an
explicit state record.  Pool and client objects are identified by their
creation index (`mysql.createPool` / `drizzle` call counters), so
"the same instance" means "the same index". -/

/-- Module state: the two nullable singletons plus creation counters. -/
structure DbState where
  _connection : Option Nat
  _db : Option Nat
  poolsCreated : Nat
  dbsCreated : Nat
deriving DecidableEq, Repr

/-- State at module load: both bindings are `null`, nothing created. -/
def initialDbState : DbState := { _connection := none, _db := none,
                                  poolsCreated := 0, dbsCreated := 0 }

/-- Embedding of `getConnection` (db/index.ts lines 13-21): create the
pool on first call, return the stored one afterwards. -/
def getConnection (s : DbState) : Nat × DbState :=
  match s._connection with
  | some c => (c, s)
  | none =>
    (s.poolsCreated, { s with _connection := some s.poolsCreated
                              poolsCreated := s.poolsCreated + 1 })

/-- Embedding of `getDb` (db/index.ts lines 23-28): create the drizzle
client over `getConnection()` on first call. -/
def getDb (s : DbState) : Nat × DbState :=
  match s._db with
  | some d => (d, s)
  | none =>
    let s1 := (getConnection s).2
    (s1.dbsCreated, { s1 with _db := some s1.dbsCreated
                              dbsCreated := s1.dbsCreated + 1 })

/-- One property access through the exported `connection` or `db`
proxies (each `get` trap calls the corresponding accessor). -/
inductive Access where
  | conn
  | dbAcc
deriving DecidableEq, Repr

/-- Dispatch one proxy access to its accessor. -/
def dbStep (s : DbState) (a : Access) : Nat × DbState :=
  match a with
  | .conn => getConnection s
  | .dbAcc => getDb s

/-- Run a sequence of proxy accesses, collecting the instance observed
by each access. -/
def runAccesses (s : DbState) : List Access → List (Access × Nat) × DbState
  | [] => ([], s)
  | a :: rest =>
    ((a, (dbStep s a).1) :: (runAccesses (dbStep s a).2 rest).1,
     (runAccesses (dbStep s a).2 rest).2)

/-- The per-module-state invariant of the lazy accessors: a `null`
binding means nothing was created yet; a non-`null` binding is the
single instance with index 0 and exactly one creation happened. -/
def DbInv (s : DbState) : Prop :=
  (s._connection = none → s.poolsCreated = 0) ∧
  (∀ c, s._connection = some c → c = 0 ∧ s.poolsCreated = 1) ∧
  (s._db = none → s.dbsCreated = 0) ∧
  (∀ d, s._db = some d → d = 0 ∧ s.dbsCreated = 1)

/-- Equality of run results is decidable (used to evaluate the model at
concrete inputs). -/
instance : DecidableEq (Except JsError Decision) := fun a b =>
  match a, b with
  | .ok x, .ok y =>
    if h : x = y then .isTrue (congrArg Except.ok h)
    else .isFalse (fun hc => by cases hc; exact h rfl)
  | .error x, .error y =>
    if h : x = y then .isTrue (congrArg Except.error h)
    else .isFalse (fun hc => by cases hc; exact h rfl)
  | .ok _, .error _ => .isFalse (fun hc => by cases hc)
  | .error _, .ok _ => .isFalse (fun hc => by cases hc)

/-! ### Helper lemmas -/

theorem strAppend_assoc (a b c : String) : a ++ b ++ c = a ++ (b ++ c) :=
  String.ext (by simp [String.data_append, List.append_assoc])

theorem encList_append (k : Char → Bool) (l1 l2 : List Char) :
    encList k (l1 ++ l2) = encList k l1 ++ encList k l2 := by
  induction l1 with
  | nil => simp [encList]
  | cons c cs ih => simp [encList, ih, List.append_assoc]

theorem encodeStr_append (k : Char → Bool) (a b : String) :
    encodeStr k (a ++ b) = encodeStr k a ++ encodeStr k b :=
  String.ext (by simp [encodeStr, String.data_append, encList_append])

theorem encodeURI_append (a b : String) :
    encodeURI (a ++ b) = encodeURI a ++ encodeURI b :=
  encodeStr_append keepURI a b

theorem append_colon_cancel {a b : String} (h : a ++ ":" = b ++ ":") : a = b := by
  have hd := congrArg String.data h
  rw [String.data_append, String.data_append] at hd
  exact String.ext (List.append_cancel_right hd)

theorem protocol_eq_iff (u : ParsedURL) (t : String) :
    u.protocol = t ++ ":" ↔ u.scheme = t := by
  constructor
  · exact fun h => append_colon_cancel h
  · intro h; simp [ParsedURL.protocol, h]

theorem jsSplitAux_length (sep : Char) (l : List Char) (cur : List Char) :
    (jsSplitAux sep l cur).length = l.count sep + 1 := by
  induction l generalizing cur with
  | nil => simp [jsSplitAux]
  | cons c cs ih =>
    by_cases h : c = sep
    · simp [jsSplitAux, h, ih, List.count_cons]
    · simp [jsSplitAux, h, ih, List.count_cons]

theorem jsOrD_ne_empty (a : Option String) (d : String) (hd : d ≠ "") :
    jsOrD a d ≠ "" := by
  cases a with
  | none => simpa [jsOrD, jsTruthy] using hd
  | some s =>
    by_cases hs : s = ""
    · simpa [jsOrD, jsTruthy, hs] using hd
    · simp [jsOrD, jsTruthy, hs]

theorem jsOrD_some_ne (s : String) (d : String) (hs : s ≠ "") :
    jsOrD (some s) d = s := by
  simp [jsOrD, jsTruthy, hs]

theorem getCountryContinentCode_ne_empty (c : String) :
    getCountryContinentCode c ≠ "" := by
  unfold getCountryContinentCode
  split <;> simp

theorem initialDbState_inv : DbInv initialDbState := by
  refine ⟨fun _ => rfl, ?_, fun _ => rfl, ?_⟩ <;>
    · intro x hx; simp [initialDbState] at hx

theorem getConnection_spec (s : DbState) (h : DbInv s) :
    (getConnection s).1 = 0 ∧ DbInv (getConnection s).2 ∧
    (getConnection s).2._db = s._db ∧ (getConnection s).2.dbsCreated = s.dbsCreated := by
  obtain ⟨h1, h2, h3, h4⟩ := h
  cases hc : s._connection with
  | some c =>
    obtain ⟨hc0, -⟩ := h2 c hc
    simp only [getConnection, hc]
    exact ⟨hc0, ⟨h1, h2, h3, h4⟩, trivial, trivial⟩
  | none =>
    have hp := h1 hc
    simp only [getConnection, hc]
    refine ⟨hp, ⟨?_, ?_, ?_, ?_⟩, trivial, trivial⟩
    · intro hx; simp at hx
    · intro x hx
      simp only [Option.some.injEq] at hx
      constructor
      · rw [← hx, hp]
      · simp [hp]
    · intro hx; exact h3 hx
    · intro x hx; exact h4 x hx

theorem getDb_spec (s : DbState) (h : DbInv s) :
    (getDb s).1 = 0 ∧ DbInv (getDb s).2 := by
  cases hd : s._db with
  | some d =>
    obtain ⟨hd0, -⟩ := h.2.2.2 d hd
    simp only [getDb, hd]
    exact ⟨hd0, h⟩
  | none =>
    obtain ⟨-, hinv1, hdb1, hdbc1⟩ := getConnection_spec s h
    have hzero : (getConnection s).2.dbsCreated = 0 := by
      rw [hdbc1]; exact h.2.2.1 hd
    obtain ⟨g1, g2, g3, g4⟩ := hinv1
    simp only [getDb, hd]
    refine ⟨hzero, ⟨?_, ?_, ?_, ?_⟩⟩
    · intro hx; exact g1 hx
    · intro x hx; exact g2 x hx
    · intro hx; simp at hx
    · intro x hx
      simp only [Option.some.injEq] at hx
      constructor
      · rw [← hx, hzero]
      · simp [hzero]

theorem runAccesses_spec (ops : List Access) (s : DbState) (h : DbInv s) :
    DbInv (runAccesses s ops).2 ∧ ∀ p ∈ (runAccesses s ops).1, p.2 = 0 := by
  induction ops generalizing s with
  | nil => exact ⟨h, by simp [runAccesses]⟩
  | cons a rest ih =>
    have hstep : (dbStep s a).1 = 0 ∧ DbInv (dbStep s a).2 := by
      cases a with
      | conn => exact ⟨(getConnection_spec s h).1, (getConnection_spec s h).2.1⟩
      | dbAcc => exact getDb_spec s h
    obtain ⟨hinv, htr⟩ := ih (dbStep s a).2 hstep.2
    refine ⟨by simpa [runAccesses] using hinv, ?_⟩
    intro p hp
    simp only [runAccesses, List.mem_cons] at hp
    rcases hp with hp | hp
    · rw [hp]; exact hstep.1
    · exact htr p hp

theorem scheme_ne_protocol {u : ParsedURL} {t : String} (h : u.scheme ≠ t) :
    u.protocol ≠ t ++ ":" :=
  fun hc => h (append_colon_cancel hc)

theorem buildResolverUrl_ip_none (io host pn c ci co : String) :
    ∃ pre, buildResolverUrl io host pn c ci co none = pre ++ "&ip=undefined" := by
  refine ⟨encodeURI (io ++ "/api/link?domain=" ++ host ++ "&alias=" ++ pn ++
    "&country=" ++ c ++ "&city=" ++ ci ++ "&continent=" ++ co), ?_⟩
  have h1 : ("&ip=" : String) ++ "undefined" = "&ip=undefined" := by decide
  have h2 : encodeURI "&ip=undefined" = "&ip=undefined" := by decide
  simp only [buildResolverUrl, jsInterpolate]
  rw [strAppend_assoc, h1, encodeURI_append, h2]

theorem resolverCall_shape (isProduction : Bool) (req : NextRequest)
    (fetchFn : ResolverRequest → FetchOutcome) (r : ResolverRequest)
    (hr : (runMiddleware isProduction req fetchFn).resolverCall = some r) :
    ∃ u : ParsedURL, parseURL req.url none = some u ∧
      r = mkResolverRequest isProduction req u := by
  rcases hu : parseURL req.url none with _ | u
  · simp only [runMiddleware, hu] at hr
    simp at hr
  · refine ⟨u, rfl, ?_⟩
    simp only [runMiddleware, hu] at hr
    split at hr
    · simp at hr
    · split at hr
      · simp at hr
      · split at hr
        · simp at hr
        · split at hr
          · simp only [Option.some.injEq] at hr
            exact hr.symm
          · split at hr
            · simp only [Option.some.injEq] at hr
              exact hr.symm
            · split at hr
              · simp only [Option.some.injEq] at hr
                exact hr.symm
              · simp only [Option.some.injEq] at hr
                exact hr.symm

/-! ### Claim theorems -/

/-- C9: the shared connection pool and database client are created
lazily through the one-time-initialisation guards of `getConnection` /
`getDb`: before any proxy access nothing is created, after any sequence
of accesses at most one pool and one drizzle client exist, and any two
accesses of the same kind observe the same instance. -/
theorem c9_lazy_singleton_accessors :
    ((runAccesses initialDbState []).2.poolsCreated = 0 ∧
     (runAccesses initialDbState []).2.dbsCreated = 0) ∧
    ∀ ops : List Access,
      (runAccesses initialDbState ops).2.poolsCreated ≤ 1 ∧
      (runAccesses initialDbState ops).2.dbsCreated ≤ 1 ∧
      (∀ p ∈ (runAccesses initialDbState ops).1, ∀ q ∈ (runAccesses initialDbState ops).1,
        p.1 = q.1 → p.2 = q.2) := by
  refine ⟨⟨rfl, rfl⟩, ?_⟩
  intro ops
  obtain ⟨hinv, htr⟩ := runAccesses_spec ops initialDbState initialDbState_inv
  obtain ⟨h1, h2, h3, h4⟩ := hinv
  refine ⟨?_, ?_, ?_⟩
  · cases hc : (runAccesses initialDbState ops).2._connection with
    | none => simp [h1 hc]
    | some c => simp [(h2 c hc).2]
  · cases hc : (runAccesses initialDbState ops).2._db with
    | none => simp [h3 hc]
    | some d => simp [(h4 d hc).2]
  · intro p hp q hq hpq
    rw [htr p hp, htr q hq]

/-- Witness for C9 at a concrete access sequence. -/
theorem c9_lazy_singleton_accessors_witness :
    (runAccesses initialDbState [Access.conn, Access.dbAcc, Access.conn]).2.poolsCreated ≤ 1 :=
  (c9_lazy_singleton_accessors.2 [Access.conn, Access.dbAcc, Access.conn]).1

/-- C8: after context extraction, `country`, `city` and `continent` are
concrete non-empty strings for every host, geo-override and geo-header
combination (including empty-string headers, which are falsy in the
`||` chains). -/
theorem c8_client_context_nonempty (host : String) (simCountry : Option String) (geo : Geo) :
    (resolveContext host simCountry geo).country ≠ "" ∧
    (resolveContext host simCountry geo).city ≠ "" ∧
    (resolveContext host simCountry geo).continent ≠ "" := by
  refine ⟨?_, ?_, ?_⟩
  · simp only [resolveContext]
    apply jsOrD_ne_empty
    apply jsOrD_ne_empty
    split <;> simp
  · simp only [resolveContext]
    apply jsOrD_ne_empty
    split <;> simp
  · simp only [resolveContext]
    split <;> split <;> first | exact getCountryContinentCode_ne_empty _ | simp

/-- Witness for C8 at a concrete production-host request shape. -/
theorem c8_client_context_nonempty_witness :
    (resolveContext "ishortn.ink" none { country := some "", city := none }).country ≠ "" :=
  (c8_client_context_nonempty "ishortn.ink" none { country := some "", city := none }).1

/-- C4 counterexample: on the non-loopback host `ishortn.ink` the
`?geo=FR` override still wins over the header-derived country `DE`,
both in `resolveContext` and in the country actually sent to the
resolver, so the override is not restricted to loopback hosts. -/
theorem c4_counterexample :
    (resolveContext "ishortn.ink" (some "FR") { country := some "DE", city := none }).country = "FR" ∧
    jsIncludes "ishortn.ink" "localhost" = false ∧
    jsIncludes "ishortn.ink" "127.0.0.1" = false ∧
    ("FR" : String) ≠ "DE" ∧
    (runMiddleware false { url := "https://ishortn.ink/abc?geo=FR", headers := [("cf-ipcountry", "DE")] }
        (fun _ => .response false .invalidJson)).resolverCall =
      some ⟨"https://ishortn.ink/api/link?domain=ishortn.ink&alias=/abc&country=FR&city=Unknown&continent=EU&ip=undefined", "", ""⟩ :=
  ⟨rfl, rfl, rfl, by decide, rfl⟩

/-- C4 (amended): a truthy `?geo=` override takes precedence over the
header-derived country on every host; the loopback check only selects
the fallback defaults used when neither override nor headers yield a
value. -/
theorem c4_geo_override_every_host (host : String) (geo : Geo) (s : String) (hs : s ≠ "") :
    (resolveContext host (some s) geo).country = s := by
  simp only [resolveContext]
  exact jsOrD_some_ne s _ hs

/-- Witness for the amended C4 on a non-loopback host. -/
theorem c4_geo_override_every_host_witness :
    (resolveContext "ishortn.ink" (some "FR") { country := some "DE", city := none }).country = "FR" :=
  c4_geo_override_every_host "ishortn.ink" { country := some "DE", city := none } "FR" (by decide)

/-- C1: the fail-open policy holds only for a non-2xx resolver status.
A rejected outbound `fetch` (network failure) and a 2xx response whose
body fails JSON parsing are not caught by `resolveLinkAndLogAnalytics`
(middleware.ts lines 103-119 have no try/catch), so the exception
escapes the handler instead of degrading to Continue; only `!response.ok`
is handled as pass-through. -/
theorem c1_resolver_failure_modes :
    (runMiddleware false { url := "https://ishortn.ink/abc", headers := [] }
        (fun _ => .networkFailure)).result = .error .fetchRejected ∧
    (runMiddleware false { url := "https://ishortn.ink/abc", headers := [] }
        (fun _ => .response true .invalidJson)).result = .error .jsonParseFailed ∧
    (runMiddleware false { url := "https://ishortn.ink/abc", headers := [] }
        (fun _ => .response false .invalidJson)).result = .ok .next :=
  ⟨rfl, rfl, rfl⟩

/-- C3 counterexample: for resolver response
`{ url := "example.com/page" }` on a request to
`https://ishortn.ink/abc`, `new URL("example.com/page", request.url)`
succeeds as a relative reference, so the decision is a Redirect to
`https://ishortn.ink/example.com/page` and not to
`https://example.com/page` as the claim states. -/
theorem c3_counterexample :
    (runMiddleware false { url := "https://ishortn.ink/abc", headers := [] }
        (fun _ => .response true (.json { url := some "example.com/page", cloaking := false }))).result =
      .ok (.redirect "https://ishortn.ink/example.com/page") ∧
    (Except.ok (Decision.redirect "https://ishortn.ink/example.com/page") : Except JsError Decision) ≠
      .ok (.redirect "https://example.com/page") :=
  ⟨rfl, by decide⟩

/-- C3 (amended): a scheme-less resolver url such as `example.com/page`
does not fail the initial parse; it resolves relative to the request
URL, and the decision is a Redirect to the request origin followed by
`/example.com/page` (the prepend-`https://` fallback is not taken). -/
theorem c3_schemeless_resolves_relative :
    parseURL "example.com/page"
        (some { scheme := "https", host := "ishortn.ink", port := none, path := ["abc"],
                schemeData := none, query := none, fragment := none }) =
      some { scheme := "https", host := "ishortn.ink", port := none,
             path := ["example.com", "page"], schemeData := none, query := none,
             fragment := none } ∧
    (runMiddleware false { url := "https://ishortn.ink/abc", headers := [] }
        (fun _ => .response true (.json { url := some "example.com/page", cloaking := false }))).result =
      .ok (.redirect "https://ishortn.ink/example.com/page") :=
  ⟨rfl, rfl⟩

/-- C5 counterexample: for resolver response
`{ url := "https://example.com", cloaking := true }` the validated URL
serialises with a trailing slash (`https://example.com/`), so the
rewrite path is `/cloaked/https%3A%2F%2Fexample.com%2F`, not the
claimed `/cloaked/https%3A%2F%2Fexample.com`. -/
theorem c5_counterexample :
    (runMiddleware false { url := "https://ishortn.ink/abc", headers := [] }
        (fun _ => .response true (.json { url := some "https://example.com", cloaking := true }))).result =
      .ok (.rewrite { scheme := "https", host := "ishortn.ink", port := none,
                      path := ["cloaked", "https%3A%2F%2Fexample.com%2F"], schemeData := none,
                      query := none, fragment := none }) ∧
    ParsedURL.pathname { scheme := "https", host := "ishortn.ink", port := none,
                         path := ["cloaked", "https%3A%2F%2Fexample.com%2F"], schemeData := none,
                         query := none, fragment := none } = "/cloaked/https%3A%2F%2Fexample.com%2F" ∧
    ("/cloaked/https%3A%2F%2Fexample.com%2F" : String) ≠ "/cloaked/https%3A%2F%2Fexample.com" :=
  ⟨rfl, rfl, by decide⟩

/-- C5 (amended): with cloaking enabled the decision is a Rewrite whose
path is the cloak prefix followed by the percent-encoded serialisation
of the validated URL; serialising `https://example.com` appends the
root slash, so the path is `/cloaked/https%3A%2F%2Fexample.com%2F`. -/
theorem c5_cloaking_rewrite :
    (parseURL "https://example.com"
        (some { scheme := "https", host := "ishortn.ink", port := none, path := ["abc"],
                schemeData := none, query := none, fragment := none })).map ParsedURL.href =
      some "https://example.com/" ∧
    encodeURIComponent "https://example.com/" = "https%3A%2F%2Fexample.com%2F" ∧
    (runMiddleware false { url := "https://ishortn.ink/abc", headers := [] }
        (fun _ => .response true (.json { url := some "https://example.com", cloaking := true }))).result =
      .ok (.rewrite { scheme := "https", host := "ishortn.ink", port := none,
                      path := ["cloaked", "https%3A%2F%2Fexample.com%2F"], schemeData := none,
                      query := none, fragment := none }) :=
  ⟨rfl, rfl, rfl⟩

/-- C7 counterexample: with no IP-related headers the derived IP is
`undefined` (the claim is right about that), but the `ip` query
parameter of the outbound resolver URL is the literal text "undefined"
produced by template-literal interpolation, not the empty string. -/
theorem c7_counterexample :
    getIpAddress ([] : Headers) = none ∧
    (runMiddleware false { url := "https://ishortn.ink/abc", headers := [] }
        (fun _ => .response false .invalidJson)).resolverCall =
      some ⟨"https://ishortn.ink/api/link?domain=ishortn.ink&alias=/abc&country=Unknown&city=Unknown&continent=Unknown&ip=undefined", "", ""⟩ ∧
    ("https://ishortn.ink/api/link?domain=ishortn.ink&alias=/abc&country=Unknown&city=Unknown&continent=Unknown&ip=undefined" : String) ≠
      "https://ishortn.ink/api/link?domain=ishortn.ink&alias=/abc&country=Unknown&city=Unknown&continent=Unknown&ip=" :=
  ⟨rfl, rfl, by decide⟩

/-- C2: the redirect dispatcher enforces a strict http/https allow-list:
whenever the resolver url parses (against the request URL) to a scheme
other than exactly `http` or `https`, the decision is Continue; and a
Redirect or Rewrite decision can only arise from a validated URL whose
scheme is `http` or `https` (the fallback branch even requires
`https`). -/
theorem c2_scheme_allowlist (requestUrl : ParsedURL) (data : ResolverData) :
    (∀ s u, data.url = some s → parseURL s (some requestUrl) = some u →
       u.scheme ≠ "http" → u.scheme ≠ "https" →
       dispatchDecision requestUrl data = .ok .next) ∧
    (∀ d, dispatchDecision requestUrl data = .ok d → d ≠ .next →
       ∃ u : ParsedURL, (u.scheme = "http" ∨ u.scheme = "https") ∧
         (parseURL (data.url.getD "") (some requestUrl) = some u ∨
          parseURL ("https://" ++ data.url.getD "") none = some u)) := by
  constructor
  · intro s u hs hp h1 h2
    by_cases hse : s = ""
    · subst hse
      simp [dispatchDecision, hs, jsTruthy]
    · have e1 : ("http:" : String) = "http" ++ ":" := by decide
      have e2 : ("https:" : String) = "https" ++ ":" := by decide
      have hne1 : u.protocol ≠ "http:" := by rw [e1]; exact scheme_ne_protocol h1
      have hne2 : u.protocol ≠ "https:" := by rw [e2]; exact scheme_ne_protocol h2
      simp [dispatchDecision, hs, jsTruthy, hse, hp, hne1, hne2]
  · intro d hd hdne
    by_cases ht : jsTruthy data.url = true
    · rcases hp : parseURL (data.url.getD "") (some requestUrl) with _ | u
      · rcases hf : parseURL ("https://" ++ (data.url.getD "")) none with _ | f
        · simp [dispatchDecision, ht, hp, hf] at hd
          exact absurd hd.symm hdne
        · by_cases hpr : f.protocol = "https:"
          · have e2 : ("https:" : String) = "https" ++ ":" := by decide
            exact ⟨f, Or.inr (append_colon_cancel (e2 ▸ hpr)), Or.inr rfl⟩
          · simp [dispatchDecision, ht, hp, hf, hpr] at hd
            exact absurd hd.symm hdne
      · by_cases e1 : u.protocol = "http:"
        · have eh : ("http:" : String) = "http" ++ ":" := by decide
          exact ⟨u, Or.inl (append_colon_cancel (eh ▸ e1)), Or.inl rfl⟩
        · by_cases e2 : u.protocol = "https:"
          · have eh : ("https:" : String) = "https" ++ ":" := by decide
            exact ⟨u, Or.inr (append_colon_cancel (eh ▸ e2)), Or.inl rfl⟩
          · simp [dispatchDecision, ht, hp, e1, e2] at hd
            exact absurd hd.symm hdne
    · simp [dispatchDecision, ht] at hd
      exact absurd hd.symm hdne

/-- Witness for C2 at the spec's `javascript:alert(1)` example. -/
theorem c2_scheme_allowlist_witness :
    dispatchDecision
      { scheme := "https", host := "ishortn.ink", port := none, path := ["abc"],
        schemeData := none, query := none, fragment := none }
      { url := some "javascript:alert(1)", cloaking := false } = .ok .next :=
  (c2_scheme_allowlist _ _).1 "javascript:alert(1)"
    { scheme := "javascript", host := "", port := none, path := [],
      schemeData := some "alert(1)", query := none, fragment := none }
    rfl rfl (by decide) (by decide)

/-- C6: every request whose path is the root, starts with one of the
reserved prefixes, ends with `.png` or `.ico`, or splits into more than
two `/`-separated parts, is passed through without calling the
resolver, for every resolver behaviour. -/
theorem c6_ineligible_paths_pass_through (isProduction : Bool) (req : NextRequest)
    (fetchFn : ResolverRequest → FetchOutcome) (u : ParsedURL)
    (hu : parseURL req.url none = some u)
    (hskip : u.pathname = "/" ∨ jsStartsWith u.pathname "/api/" = true ∨
      jsStartsWith u.pathname "/dashboard" = true ∨
      jsStartsWith u.pathname "/_next/" = true ∨
      jsStartsWith u.pathname "/cloaked/" = true ∨
      jsEndsWith u.pathname ".png" = true ∨ jsEndsWith u.pathname ".ico" = true ∨
      2 < (jsSplit '/' u.pathname).length) :
    runMiddleware isProduction req fetchFn =
      { result := .ok .next, resolverCall := none } := by
  have hsk : shouldSkip u.pathname = true := by
    rcases hskip with h | h | h | h | h | h | h | h <;> simp [shouldSkip, h]
  by_cases hp : isProtectedRoute u.pathname = true
  · simp [runMiddleware, hu, hp]
  · simp [runMiddleware, hu, hp, hsk]

/-- Witness for C6 at a concrete `/api/` path with a failing resolver. -/
theorem c6_ineligible_paths_pass_through_witness :
    runMiddleware false { url := "https://ishortn.ink/api/foo", headers := [] }
      (fun _ => .networkFailure) = { result := .ok .next, resolverCall := none } :=
  c6_ineligible_paths_pass_through false _ _
    { scheme := "https", host := "ishortn.ink", port := none, path := ["api", "foo"],
      schemeData := none, query := none, fragment := none }
    rfl (Or.inr (Or.inl (by decide)))

/-- C10: a single-segment alias with a trailing slash (any path of the
form `/seg/`) splits into three parts because of the empty segment
after the trailing slash, so the depth check classifies it as nested:
the request passes through and the resolver is never called. -/
theorem c10_trailing_slash_pass_through (isProduction : Bool) (req : NextRequest)
    (fetchFn : ResolverRequest → FetchOutcome) (u : ParsedURL) (seg : String)
    (hu : parseURL req.url none = some u)
    (hpath : u.pathname = "/" ++ seg ++ "/") :
    runMiddleware isProduction req fetchFn =
      { result := .ok .next, resolverCall := none } := by
  have hcount : 2 < (jsSplit '/' u.pathname).length := by
    rw [hpath, jsSplit, jsSplitAux_length]
    have hdata : ("/" ++ seg ++ "/").data = ('/' :: seg.data) ++ ['/'] := by
      rw [String.data_append, String.data_append]
      rfl
    rw [hdata]
    simp [List.count_append, List.count_cons]
  have hsk : shouldSkip u.pathname = true := by
    simp [shouldSkip, hcount]
  by_cases hp : isProtectedRoute u.pathname = true
  · simp [runMiddleware, hu, hp]
  · simp [runMiddleware, hu, hp, hsk]

/-- Witness for C10 at the concrete path `/abc/`. -/
theorem c10_trailing_slash_pass_through_witness :
    runMiddleware false { url := "https://ishortn.ink/abc/", headers := [] }
      (fun _ => .networkFailure) = { result := .ok .next, resolverCall := none } :=
  c10_trailing_slash_pass_through false _ _
    { scheme := "https", host := "ishortn.ink", port := none, path := ["abc", ""],
      schemeData := none, query := none, fragment := none }
    "abc" rfl (by decide)

/-- C7 (amended): with none of the three IP headers present the derived
IP is `undefined`, and the `ip` query parameter of any resolver call
the middleware issues is the literal text "undefined" (the URL ends in
`&ip=undefined`), not the empty string. -/
theorem c7_ip_undefined_param (isProduction : Bool) (req : NextRequest)
    (fetchFn : ResolverRequest → FetchOutcome)
    (h1 : hget req.headers "x-forwarded-for" = none)
    (h2 : hget req.headers "x-real-ip" = none)
    (h3 : hget req.headers "cf-connecting-ip" = none) :
    getIpAddress req.headers = none ∧
    ∀ r, (runMiddleware isProduction req fetchFn).resolverCall = some r →
      ∃ pre, r.url = pre ++ "&ip=undefined" := by
  have hip : getIpAddress req.headers = none := by
    simp [getIpAddress, h1, h2, h3, jsTruthy]
  refine ⟨hip, ?_⟩
  intro r hr
  obtain ⟨u, -, hru⟩ := resolverCall_shape isProduction req fetchFn r hr
  subst hru
  simp only [mkResolverRequest, hip]
  exact buildResolverUrl_ip_none _ _ _ _ _ _

/-- Witness for the amended C7: a request with no headers at all. -/
theorem c7_ip_undefined_param_witness :
    getIpAddress ([] : Headers) = none :=
  (c7_ip_undefined_param false { url := "https://ishortn.ink/abc", headers := [] }
    (fun _ => .response false .invalidJson) rfl rfl rfl).1

end IShortn